import Mathlib

/-!
Verification development for the bytebytego blog scraper
(`src/scraper.py` and `src/backend/batch_scrape.py`).

The Python code is shallowly embedded: the network and the HTML parser are
abstracted behind explicit parameters (a fetch function, and a `Soup`
record holding exactly the pieces of the parsed document the extractor
queries), while all control flow, filtering, deduplication, accounting and
exception propagation of the Python functions are translated directly.
-/

/-! ## String helpers mirroring the Python primitives used by the code -/

/-- Characters Python treats as whitespace for `str.strip` / `int(...)`
(the ASCII ones; the source never feeds other whitespace). -/
def isSpaceChar (c : Char) : Bool :=
  c == ' ' || c == '\t' || c == '\n' || c == '\r' || c == '\x0b' || c == '\x0c'

/-- Python `s.strip()` (also the `strip=True` of `get_text`). -/
def stripStr (s : String) : String :=
  String.mk (((s.toList.dropWhile isSpaceChar).reverse.dropWhile isSpaceChar).reverse)

/-- Decimal digit value of a character, if it is a digit. -/
def digitVal (c : Char) : Option Nat :=
  if '0' ≤ c ∧ c ≤ '9' then some (c.toNat - 48) else none

/-- Accumulating digit-string parser: `none` as soon as a non-digit shows up. -/
def parseDigitsAux : Option Nat → List Char → Option Nat
  | acc, [] => acc
  | acc, c :: rest =>
    match acc, digitVal c with
    | some a, some d => parseDigitsAux (some (a * 10 + d)) rest
    | _, _ => none

/-- A non-empty all-digit character list parsed as a natural number. -/
def parseDigits : List Char → Option Nat
  | [] => none
  | cs => parseDigitsAux (some 0) cs

/-- Python `int(s)` on a string: optional surrounding whitespace, optional
sign, then decimal digits; `none` models the `ValueError` it raises
otherwise. -/
def pyInt (s : String) : Option Int :=
  match (stripStr s).toList with
  | [] => none
  | '+' :: cs => (parseDigits cs).map Int.ofNat
  | '-' :: cs => (parseDigits cs).map (fun n => -(Int.ofNat n))
  | cs => (parseDigits cs).map Int.ofNat

/-- Whether `needle` occurs as a contiguous substring of the haystack list
(Python `needle in hay`). -/
def hasSubstrAux (needle : List Char) : List Char → Bool
  | [] => needle.isEmpty
  | hay@(_ :: rest) => needle.isPrefixOf hay || hasSubstrAux needle rest

/-- Python `needle in hay` on strings. -/
def hasSubstr (hay needle : String) : Bool :=
  hasSubstrAux needle.toList hay.toList

/-- The remainder after the first left-to-right occurrence of `sep`, if any
(one splitting step of Python `str.split`). -/
def afterFirst (sep : List Char) : List Char → Option (List Char)
  | [] => none
  | hay@(_ :: rest) =>
    if sep.isPrefixOf hay then some (List.drop sep.length hay)
    else afterFirst sep rest

/-- Fueled iteration of `afterFirst`: the suffix after the last
(non-overlapping, left-to-right) occurrence of `sep`. -/
def afterLastOcc (sep : List Char) : Nat → List Char → List Char
  | 0, s => s
  | fuel + 1, s =>
    match afterFirst sep s with
    | none => s
    | some t => afterLastOcc sep fuel t

/-- Python `url.split('/p/')[-1]`, the storage key (slug) derivation used by
`save_post` and `scrape_all_posts` in `src/backend/batch_scrape.py`. -/
def slugOf (url : String) : String :=
  String.mk (afterLastOcc ['/', 'p', '/'] url.toList.length url.toList)

/-! ## Sitemap collection (`src/backend/batch_scrape.py`) -/

/-- One entry of the per-year sitemap result: the dict
`{'url': ..., 'title': ..., 'year': ...}` built by
`collect_urls_from_sitemap`. -/
structure SitemapEntry where
  url : String
  title : String
  year : Nat
deriving Repr, DecidableEq

/-- A hyperlink with an `href` attribute, as returned by
`soup.find_all('a', href=True)` on a sitemap page: its target and its
visible text. -/
structure Link where
  href : String
  text : String
deriving Repr, DecidableEq

/-- The filtering and entry construction of `collect_urls_from_sitemap`:
keep links whose href contains `/p/` and `blog.bytebytego.com`, and build a
`SitemapEntry` from each with the stripped link text as title. -/
def parseSitemapLinks (links : List Link) (year : Nat) : List SitemapEntry :=
  (links.filter
      (fun l => hasSubstr l.href "/p/" && hasSubstr l.href "blog.bytebytego.com")).map
    (fun l => { url := l.href, title := stripStr l.text, year := year })

/-- `collect_urls_from_sitemap(year)`. The network is the parameter `fetch`:
`Except.error` is an exception raised by `requests.get` (propagated, the
function has no handler), `Except.ok links` is the list of href-carrying
anchors of the fetched page. -/
def collect_urls_from_sitemap (fetch : Nat → Except String (List Link))
    (year : Nat) : Except String (List SitemapEntry) :=
  match fetch year with
  | Except.error e => Except.error e
  | Except.ok links => Except.ok (parseSitemapLinks links year)

/-- The `for year in years` loop of `collect_all_urls`: extend `all_posts`
with each year's result in order; an exception from any year propagates out
of the loop (there is no try/except around it). -/
def collectYears (fetch : Nat → Except String (List Link)) :
    List Nat → Except String (List SitemapEntry)
  | [] => Except.ok []
  | y :: ys =>
    match collect_urls_from_sitemap fetch y with
    | Except.error e => Except.error e
    | Except.ok posts =>
      match collectYears fetch ys with
      | Except.error e => Except.error e
      | Except.ok rest => Except.ok (posts ++ rest)

/-- The dedup loop of `collect_all_urls`: iterate posts, keep a seen-URL
set (modelled as a list), append only on first sight. -/
def dedupByUrl : List SitemapEntry → List String → List SitemapEntry
  | [], _ => []
  | p :: rest, seen =>
    if p.url ∈ seen then dedupByUrl rest seen
    else p :: dedupByUrl rest (p.url :: seen)

/-- The hard-coded year range of `collect_all_urls`. -/
def sitemapYears : List Nat := [2021, 2022, 2023, 2024, 2025]

/-- `collect_all_urls()`: concatenate the per-year results for 2021..2025
in order, then remove duplicates by URL keeping first occurrences. -/
def collect_all_urls (fetch : Nat → Except String (List Link)) :
    Except String (List SitemapEntry) :=
  match collectYears fetch sitemapYears with
  | Except.error e => Except.error e
  | Except.ok allPosts => Except.ok (dedupByUrl allPosts [])

/-! ## JSON values and Python-semantics helpers (`src/scraper.py`) -/

/-- JSON values as produced by `json.loads`. -/
inductive Json where
  | null : Json
  | bool : Bool → Json
  | num : Int → Json
  | str : String → Json
  | arr : List Json → Json
  | obj : List (String × Json) → Json

/-- Python maps JSON `null` to `None`; a Python value originating from JSON
is therefore an `Option Json` with `none` for `None`. -/
def toPy : Json → Option Json
  | Json.null => none
  | j => some j

/-- Python truthiness of a JSON-derived value. -/
def jTruthy : Json → Bool
  | Json.null => false
  | Json.bool b => b
  | Json.num n => n != 0
  | Json.str s => s != ""
  | Json.arr xs => !xs.isEmpty
  | Json.obj fs => !fs.isEmpty

/-- Python truthiness of an optional value (`None` is falsy). -/
def pyTruthy : Option Json → Bool
  | none => false
  | some j => jTruthy j

/-- Python `v.get(key)`: succeeds only when the receiver is a dict, with the
stored value (or `None` when absent); on any other receiver it raises
`AttributeError`, which the string error carries. -/
def pyGet (v : Json) (key : String) : Except String (Option Json) :=
  match v with
  | Json.obj fs =>
    match fs.find? (fun p => p.1 == key) with
    | none => Except.ok none
    | some p => Except.ok (toPy p.2)
  | _ => Except.error "AttributeError"

/-- Python `v.get(key, default)` on a dict: the stored value when the key is
present (even when it is `None`), the default otherwise; non-dict receivers
raise `AttributeError`. -/
def pyGetDefault (v : Json) (key : String) (dflt : Json) :
    Except String (Option Json) :=
  match v with
  | Json.obj fs =>
    match fs.find? (fun p => p.1 == key) with
    | none => Except.ok (some dflt)
    | some p => Except.ok (toPy p.2)
  | _ => Except.error "AttributeError"

/-- Python `v[0]` on a JSON-derived value: the head of a list, the first
character of a string; dicts raise `KeyError`, scalars `TypeError`, an
empty sequence `IndexError`. -/
def pyIndex0 : Option Json → Except String Json
  | none => Except.error "TypeError"
  | some (Json.arr []) => Except.error "IndexError"
  | some (Json.arr (x :: _)) => Except.ok x
  | some (Json.str s) =>
    match s.toList with
    | [] => Except.error "IndexError"
    | c :: _ => Except.ok (Json.str (String.mk [c]))
  | some (Json.obj _) => Except.error "KeyError"
  | some _ => Except.error "TypeError"

/-! ## The parsed document (`Soup`) -/

/-- An `img` element of the article: its relevant attributes, each `none`
when the attribute is absent (`img.get(...)` returns `None`). -/
structure Img where
  src : Option String
  alt : Option String
  title : Option String
  width : Option String
  height : Option String
deriving Repr, DecidableEq

/-- A `code` element of the article: its CSS classes and its text. -/
structure CodeBlock where
  classes : List String
  text : String
deriving Repr, DecidableEq

/-- The `article.newsletter-post` subtree: its images and code blocks in
document order. -/
structure Article where
  imgs : List Img
  codes : List CodeBlock
deriving Repr, DecidableEq

/-- The parsed HTML document, holding exactly the query results
`src/scraper.py` asks BeautifulSoup for.
`jsonLd`: `none` when no `script type=application/ld+json` element exists;
`some none` when it exists but its content fails `json.loads`
(`JSONDecodeError`); `some (some j)` when it parses to `j`.
`likes`/`comments`: the captured count when a button whose aria-label
matches the corresponding pattern exists, else `none`. -/
structure Soup where
  title : Option String
  body : Option String
  jsonLd : Option (Option Json)
  likes : Option Nat
  comments : Option Nat
  article : Option Article

/-- `extract_title`: the stripped text of `h1.post-title`, or `None`. -/
def extract_title (soup : Soup) : Option String :=
  soup.title

/-- `extract_content_text`: the newline-separated text of
`div.body.markup`, or `None`. -/
def extract_content_text (soup : Soup) : Option String :=
  soup.body

/-- The metadata dict: insertion-ordered keys with Python values
(`none` is Python `None`). -/
abbrev Metadata : Type := List (String × Option Json)

/-- The JSON-LD half of `extract_metadata`: the body of the `try` block
together with its `except json.JSONDecodeError: pass` handler (modelled by
`some none` yielding the empty partial dict); any other exception — the
`AttributeError` from `.get` on a non-dict, or the errors from
`authors[0]` — propagates as `Except.error`. -/
def jsonLdPart (jsonLd : Option (Option Json)) : Except String Metadata :=
  match jsonLd with
  | none => Except.ok []
  | some none => Except.ok []
  | some (some jd) =>
    match pyGet jd "headline" with
    | Except.error m => Except.error m
    | Except.ok h =>
      match pyGet jd "description" with
      | Except.error m => Except.error m
      | Except.ok d =>
        match pyGet jd "datePublished" with
        | Except.error m => Except.error m
        | Except.ok dp =>
          match pyGet jd "dateModified" with
          | Except.error m => Except.error m
          | Except.ok dm =>
            match pyGetDefault jd "author" (Json.arr []) with
            | Except.error m => Except.error m
            | Except.ok authors =>
              if pyTruthy authors then
                match pyIndex0 authors with
                | Except.error m => Except.error m
                | Except.ok a0 =>
                  match pyGet a0 "name" with
                  | Except.error m => Except.error m
                  | Except.ok nm =>
                    match pyIndex0 authors with
                    | Except.error m => Except.error m
                    | Except.ok a0' =>
                      match pyGet a0' "url" with
                      | Except.error m => Except.error m
                      | Except.ok au =>
                        Except.ok
                          [("headline", h), ("description", d),
                           ("date_published", dp), ("date_modified", dm),
                           ("author", nm), ("author_url", au)]
              else
                Except.ok
                  [("headline", h), ("description", d),
                   ("date_published", dp), ("date_modified", dm)]

/-- `extract_metadata`: the JSON-LD block first (whose uncaught exceptions
abort the whole call), then the likes and comments buttons, each appended
only when found. -/
def extract_metadata (soup : Soup) : Except String Metadata :=
  match jsonLdPart soup.jsonLd with
  | Except.error m => Except.error m
  | Except.ok md1 =>
    let md2 : Metadata :=
      match soup.likes with
      | some n => md1 ++ [("likes", some (Json.num (Int.ofNat n)))]
      | none => md1
    let md3 : Metadata :=
      match soup.comments with
      | some n => md2 ++ [("comments", some (Json.num (Int.ofNat n)))]
      | none => md2
    Except.ok md3

/-! ## Code snippets and images (`src/scraper.py`) -/

/-- One element of the `code_snippets` output list. -/
structure CodeOut where
  index : Nat
  language : Option String
  code : String
deriving Repr, DecidableEq

/-- The language-detection loop: the first class starting with `language-`,
with every occurrence of `language-` removed (`str.replace` replaces all). -/
def detectLang : List String → Option String
  | [] => none
  | cls :: rest =>
    if cls.startsWith "language-" then some (cls.replace "language-" "")
    else detectLang rest

/-- The enumerated body of `extract_code_snippets`. -/
def extractCodeAux : Nat → List CodeBlock → List CodeOut
  | _, [] => []
  | idx, cb :: rest =>
    { index := idx, language := detectLang cb.classes, code := cb.text }
      :: extractCodeAux (idx + 1) rest

/-- `extract_code_snippets`: every `code` element of the article in document
order, with enumeration index and detected language; empty when the article
container is absent. -/
def extract_code_snippets (soup : Soup) : List CodeOut :=
  match soup.article with
  | none => []
  | some art => extractCodeAux 0 art.codes

/-- One element of the `images` output list. -/
structure ImgOut where
  index : Nat
  src : Option String
  alt : Option String
  title : Option String
  width : Option String
  height : Option String
deriving Repr, DecidableEq

/-- The image dict appended for a retained image at enumeration index
`idx`. -/
def mkImgOut (idx : Nat) (img : Img) : ImgOut :=
  { index := idx, src := img.src, alt := img.alt, title := img.title,
    width := img.width, height := img.height }

/-- The size filter of `extract_images`, `true` when the image is kept.
Mirrors `if width and height: try: if int(width) < 100 or int(height) < 100:
continue except ValueError: pass` — in particular the left-to-right
evaluation: a `ValueError` from `int(width)` skips the whole test (kept),
while `int(width) < 100` short-circuits to a discard before `int(height)`
is ever evaluated. -/
def keepImg (img : Img) : Bool :=
  match img.width, img.height with
  | some w, some h =>
    if w != "" && h != "" then
      match pyInt w with
      | none => true
      | some wv =>
        if wv < 100 then false
        else
          match pyInt h with
          | none => true
          | some hv => !(hv < 100)
    else true
  | _, _ => true

/-- The enumerated filter loop of `extract_images`: `idx` advances over all
images, retained or not. -/
def extractImagesAux : Nat → List Img → List ImgOut
  | _, [] => []
  | idx, img :: rest =>
    if keepImg img then mkImgOut idx img :: extractImagesAux (idx + 1) rest
    else extractImagesAux (idx + 1) rest

/-- `extract_images`: the size-filtered images of the article subtree;
empty when the article container is absent. -/
def extract_images (soup : Soup) : List ImgOut :=
  match soup.article with
  | none => []
  | some art => extractImagesAux 0 art.imgs

/-! ## Post extraction (`extract_post`) -/

/-- The complete post record assembled by `extract_post`. -/
structure Post where
  url : String
  title : Option String
  content_text : Option String
  metadata : Metadata
  code_snippets : List CodeOut
  images : List ImgOut

/-- The errors that can escape `extract_post`: `fetch` is the
`requests` exception / `raise_for_status` HTTPError raised by `fetch_html`
(the spec's FetchError); `pyErr` is any other uncaught Python exception
raised during extraction of a successfully fetched document. -/
inductive ScrapeErr where
  | fetch : String → ScrapeErr
  | pyErr : String → ScrapeErr
deriving Repr, DecidableEq

/-- `fetch_html`: one network fetch returning the parsed document, with
`raise_for_status` folded into the fetch parameter (an `Except.error` is a
network failure or a non-success HTTP status). -/
def fetch_html (fetch : String → Except String Soup) (url : String) :
    Except String Soup :=
  fetch url

/-- `extract_post(url)`: fetch, then assemble the post dict from the five
sub-extractions. Only `extract_metadata` among them can raise; its
exception propagates uncaught (`ScrapeErr.pyErr`). -/
def extract_post (fetch : String → Except String Soup) (url : String) :
    Except ScrapeErr Post :=
  match fetch_html fetch url with
  | Except.error m => Except.error (ScrapeErr.fetch m)
  | Except.ok soup =>
    match extract_metadata soup with
    | Except.error m => Except.error (ScrapeErr.pyErr m)
    | Except.ok md =>
      Except.ok
        { url := url,
          title := extract_title soup,
          content_text := extract_content_text soup,
          metadata := md,
          code_snippets := extract_code_snippets soup,
          images := extract_images soup }

/-! ## Batch runner (`scrape_all_posts` in `src/backend/batch_scrape.py`) -/

/-- One record of the summary's error list. -/
structure ErrRec where
  url : String
  slug : String
  error : String
deriving Repr, DecidableEq

/-- The observable actions of one loop iteration, in order: a resumability
skip, a successful extraction (followed by the save when enabled), the
rate-limit wait (`time.sleep(rate_limit)`), or a caught exception. -/
inductive Event where
  | skipped : String → Event
  | extracted : String → Event
  | slept : Event
  | errored : String → String → Event
deriving Repr, DecidableEq

/-- The mutable state of the batch loop: the set of stored slugs (the
`.json` files of the output directory), the two counters, the error list,
and the trace of events so far. -/
structure BatchState where
  store : List String
  successes : Nat
  failures : Nat
  errors : List ErrRec
  events : List Event

/-- The message stored by `errors.append(...)`: `str(e)` of the caught
exception. -/
def errMsgOf : ScrapeErr → String
  | ScrapeErr.fetch m => m
  | ScrapeErr.pyErr m => m

/-- One iteration of the `for i, url_data in enumerate(urls, 1)` loop: the
resumability check (only when saving is enabled), then
`extract_post`/`save_post` inside `try`, with `time.sleep` after a success
and the error accounting in `except`. -/
def processEntry (extract : String → Except ScrapeErr Post)
    (saveEnabled : Bool) (st : BatchState) (entry : SitemapEntry) :
    BatchState :=
  let url := entry.url
  let slug := slugOf url
  if saveEnabled && slug ∈ st.store then
    { st with
      successes := st.successes + 1,
      events := st.events ++ [Event.skipped slug] }
  else
    match extract url with
    | Except.ok post =>
      let store' :=
        if saveEnabled then st.store ++ [slugOf post.url] else st.store
      { st with
        store := store',
        successes := st.successes + 1,
        events := st.events ++ [Event.extracted slug, Event.slept] }
    | Except.error e =>
      { st with
        failures := st.failures + 1,
        errors := st.errors ++ [{ url := url, slug := slug, error := errMsgOf e }],
        events := st.events ++ [Event.errored slug (errMsgOf e)] }

/-- The whole loop of `scrape_all_posts`, one entry at a time. -/
def runBatch (extract : String → Except ScrapeErr Post) (saveEnabled : Bool) :
    List SitemapEntry → BatchState → BatchState
  | [], st => st
  | e :: rest, st =>
    runBatch extract saveEnabled rest (processEntry extract saveEnabled st e)

/-- The initial state of a `scrape_all_posts` call: counters and lists
start empty; `store0` is the set of already-written files in the output
directory. -/
def initState (store0 : List String) : BatchState :=
  { store := store0, successes := 0, failures := 0, errors := [], events := [] }

/-- `scrape_all_posts(urls, output_dir, rate_limit, save_enabled)` run to
completion, as the final loop state. -/
def scrape_all_posts (extract : String → Except ScrapeErr Post)
    (saveEnabled : Bool) (urls : List SitemapEntry) (store0 : List String) :
    BatchState :=
  runBatch extract saveEnabled urls (initState store0)

/-- The summary dict returned by `scrape_all_posts`. -/
structure BatchSummary where
  total : Nat
  successful : Nat
  failed : Nat
  errors : List ErrRec
deriving Repr, DecidableEq

/-- The final `return {...}` of `scrape_all_posts`. -/
def batchSummary (extract : String → Except ScrapeErr Post)
    (saveEnabled : Bool) (urls : List SitemapEntry) (store0 : List String) :
    BatchSummary :=
  let st := scrape_all_posts extract saveEnabled urls store0
  { total := urls.length, successful := st.successes,
    failed := st.failures, errors := st.errors }

/-! ## Lemmas about the dedup loop -/

theorem dedupByUrl_not_mem_seen (l : List SitemapEntry) (seen : List String) :
    ∀ e ∈ dedupByUrl l seen, e.url ∉ seen := by
  induction l generalizing seen with
  | nil => intro e he; simp [dedupByUrl] at he
  | cons p rest ih =>
    intro e he
    by_cases hp : p.url ∈ seen
    · rw [dedupByUrl, if_pos hp] at he
      exact ih seen e he
    · rw [dedupByUrl, if_neg hp] at he
      rcases List.mem_cons.mp he with he | he
      · subst he; exact hp
      · intro hmem
        exact ih (p.url :: seen) e he (List.mem_cons_of_mem _ hmem)

theorem dedupByUrl_nodup (l : List SitemapEntry) (seen : List String) :
    ((dedupByUrl l seen).map SitemapEntry.url).Nodup := by
  induction l generalizing seen with
  | nil => simp [dedupByUrl]
  | cons p rest ih =>
    by_cases hp : p.url ∈ seen
    · rw [dedupByUrl, if_pos hp]; exact ih seen
    · rw [dedupByUrl, if_neg hp]
      rw [List.map_cons, List.nodup_cons]
      refine ⟨?_, ih _⟩
      intro hmem
      rcases List.mem_map.mp hmem with ⟨e, he, hurl⟩
      exact dedupByUrl_not_mem_seen rest (p.url :: seen) e he
        (hurl ▸ List.mem_cons_self _ _)

theorem dedupByUrl_sublist (l : List SitemapEntry) (seen : List String) :
    (dedupByUrl l seen).Sublist l := by
  induction l generalizing seen with
  | nil => simp [dedupByUrl]
  | cons p rest ih =>
    by_cases hp : p.url ∈ seen
    · rw [dedupByUrl, if_pos hp]
      exact (ih seen).cons p
    · rw [dedupByUrl, if_neg hp]
      exact (ih (p.url :: seen)).cons₂ p

theorem dedupByUrl_find? (u : String) (l : List SitemapEntry) :
    ∀ seen : List String, u ∉ seen →
      (dedupByUrl l seen).find? (fun e => e.url == u) =
        l.find? (fun e => e.url == u) := by
  induction l with
  | nil => intro seen _; rfl
  | cons p rest ih =>
    intro seen hu
    by_cases hp : p.url ∈ seen
    · rw [dedupByUrl, if_pos hp]
      have hne : ¬((fun (e : SitemapEntry) => e.url == u) p = true) := by
        simp only [beq_iff_eq]
        intro h; exact hu (h ▸ hp)
      rw [@List.find?_cons_of_neg _ _ p rest hne]
      exact ih seen hu
    · rw [dedupByUrl, if_neg hp]
      by_cases hpu : p.url = u
      · have hpos : (fun (e : SitemapEntry) => e.url == u) p = true := by
          simp only [beq_iff_eq]; exact hpu
        rw [@List.find?_cons_of_pos _ _ p (dedupByUrl rest (p.url :: seen)) hpos,
            @List.find?_cons_of_pos _ _ p rest hpos]
      · have hneg : ¬((fun (e : SitemapEntry) => e.url == u) p = true) := by
          simp only [beq_iff_eq]; exact hpu
        rw [@List.find?_cons_of_neg _ _ p (dedupByUrl rest (p.url :: seen)) hneg,
            @List.find?_cons_of_neg _ _ p rest hneg]
        refine ih (p.url :: seen) ?_
        intro hmem
        rcases List.mem_cons.mp hmem with h | h
        · exact hpu h.symm
        · exact hu h

/-- C1: for every input set of per-year sitemap results (any `fetch`), a
successful `collect_all_urls` output has pairwise-distinct `url`s, is a
subsequence of the year-ascending concatenation `L` of the per-year
results, and the surviving entry for each url is the first entry with that
url in `L` — first sight wins, in year-ascending then document order. -/
theorem collect_all_urls_dedup_invariant
    (fetch : Nat → Except String (List Link)) (L out : List SitemapEntry)
    (hL : collectYears fetch sitemapYears = Except.ok L)
    (hout : collect_all_urls fetch = Except.ok out) :
    (out.map SitemapEntry.url).Nodup ∧ out.Sublist L ∧
      ∀ u : String,
        out.find? (fun e => e.url == u) = L.find? (fun e => e.url == u) := by
  have hout' : out = dedupByUrl L [] := by
    rw [collect_all_urls, hL] at hout
    exact (Except.ok.injEq _ _).mp hout |>.symm
  subst hout'
  refine ⟨dedupByUrl_nodup L [], dedupByUrl_sublist L [], ?_⟩
  intro u
  exact dedupByUrl_find? u L [] (List.not_mem_nil u)

/-- A concrete sitemap universe for the witness: year 2021 has posts a and
b, year 2022 repeats post a (different title) and has a non-post link. -/
def fetchW : Nat → Except String (List Link) := fun y =>
  if y = 2021 then
    Except.ok [{ href := "https://blog.bytebytego.com/p/a", text := "A" },
               { href := "https://blog.bytebytego.com/p/b", text := "B" }]
  else if y = 2022 then
    Except.ok [{ href := "https://blog.bytebytego.com/p/a", text := "A again" },
               { href := "https://example.com/q", text := "Q" }]
  else Except.ok []

/-- The concatenated per-year results of `fetchW`. -/
def LW : List SitemapEntry :=
  [{ url := "https://blog.bytebytego.com/p/a", title := "A", year := 2021 },
   { url := "https://blog.bytebytego.com/p/b", title := "B", year := 2021 },
   { url := "https://blog.bytebytego.com/p/a", title := "A again", year := 2022 }]

/-- The deduplicated output for `fetchW`. -/
def outW : List SitemapEntry :=
  [{ url := "https://blog.bytebytego.com/p/a", title := "A", year := 2021 },
   { url := "https://blog.bytebytego.com/p/b", title := "B", year := 2021 }]

theorem collect_all_urls_dedup_invariant_witness :
    (outW.map SitemapEntry.url).Nodup ∧ outW.Sublist LW ∧
      ∀ u : String,
        outW.find? (fun e => e.url == u) = LW.find? (fun e => e.url == u) :=
  collect_all_urls_dedup_invariant fetchW LW outW rfl rfl

/-! ## Lemmas about the image filter loop -/

theorem extractImagesAux_eq_enumFrom (imgs : List Img) :
    ∀ n : Nat, extractImagesAux n imgs =
      ((List.enumFrom n imgs).filter (fun p => keepImg p.2)).map
        (fun p => mkImgOut p.1 p.2) := by
  induction imgs with
  | nil => intro n; rfl
  | cons img rest ih =>
    intro n
    by_cases h : keepImg img
    · simp [extractImagesAux, h, List.enumFrom, List.filter_cons, ih (n + 1)]
    · simp [extractImagesAux, h, List.enumFrom, List.filter_cons, ih (n + 1)]

theorem extractImagesAux_index_ge (imgs : List Img) :
    ∀ n : Nat, ∀ o ∈ extractImagesAux n imgs, n ≤ o.index := by
  induction imgs with
  | nil => intro n o ho; simp [extractImagesAux] at ho
  | cons img rest ih =>
    intro n o ho
    rw [extractImagesAux] at ho
    by_cases h : keepImg img
    · rw [if_pos h] at ho
      rcases List.mem_cons.mp ho with rfl | ho
      · exact Nat.le_refl _
      · exact Nat.le_trans (Nat.le_succ n) (ih (n + 1) o ho)
    · rw [if_neg h] at ho
      exact Nat.le_trans (Nat.le_succ n) (ih (n + 1) o ho)

theorem mem_extractImagesAux_iff (imgs : List Img) :
    ∀ (n idx : Nat) (img : Img), imgs.get? idx = some img →
      (mkImgOut (n + idx) img ∈ extractImagesAux n imgs ↔ keepImg img = true) := by
  induction imgs with
  | nil => intro n idx img h; simp at h
  | cons i rest ih =>
    intro n idx img h
    cases idx with
    | zero =>
      rw [List.get?_cons_zero] at h
      injection h with h
      subst h
      rw [Nat.add_zero, extractImagesAux]
      by_cases hk : keepImg i
      · rw [if_pos hk]
        exact ⟨fun _ => hk, fun _ => List.mem_cons_self _ _⟩
      · rw [if_neg hk]
        constructor
        · intro hmem
          have hge := extractImagesAux_index_ge rest (n + 1) _ hmem
          have : (mkImgOut n i).index = n := rfl
          omega
        · intro hk'; exact absurd hk' hk
    | succ k =>
      rw [List.get?_cons_succ] at h
      rw [show n + (k + 1) = (n + 1) + k by omega, extractImagesAux]
      by_cases hk : keepImg i
      · rw [if_pos hk, List.mem_cons]
        constructor
        · intro hmem
          rcases hmem with heq | hmem
          · exfalso
            have hidx : (n + 1) + k = n := congrArg ImgOut.index heq
            omega
          · exact (ih (n + 1) k img h).mp hmem
        · intro hkeep
          exact Or.inr ((ih (n + 1) k img h).mpr hkeep)
      · rw [if_neg hk]
        exact ih (n + 1) k img h

/-- A small icon image (10 by 10) followed by a large diagram image, for
exercising the filter's index behaviour. -/
def soupC3 : Soup :=
  { title := none, body := none, jsonLd := none, likes := none,
    comments := none,
    article := some
      { imgs :=
          [{ src := some "icon.png", alt := none, title := none,
             width := some "10", height := some "10" },
           { src := some "diagram.png", alt := none, title := none,
             width := some "200", height := some "200" }],
        codes := [] } }

/-- C3 counterexample: with the first of two images discarded by the size
filter, the single retained image carries index 1 (its original document
position), not 0 — the retained images are not re-indexed 0..k-1. -/
theorem extract_images_not_reindexed :
    (extract_images soupC3).map ImgOut.index = [1] ∧
      (extract_images soupC3).map ImgOut.index ≠ [0] := by
  refine ⟨rfl, ?_⟩
  decide

/-- C3 amended: each image returned by `extract_images` carries as `index`
its original position among all image elements of the article in document
order (the enumeration index), not its position among the retained images;
after a discard the subsequent retained indices keep their original values,
leaving a gap. -/
theorem extract_images_original_indices (soup : Soup) (art : Article)
    (h : soup.article = some art) :
    extract_images soup =
      ((List.enumFrom 0 art.imgs).filter (fun p => keepImg p.2)).map
        (fun p => mkImgOut p.1 p.2) := by
  rw [extract_images, h]
  exact extractImagesAux_eq_enumFrom art.imgs 0

theorem extract_images_original_indices_witness :
    extract_images soupC3 =
      ((List.enumFrom 0 ((soupC3.article.getD ⟨[], []⟩).imgs)).filter
          (fun p => keepImg p.2)).map (fun p => mkImgOut p.1 p.2) :=
  extract_images_original_indices soupC3 (soupC3.article.getD ⟨[], []⟩) rfl

theorem keepImg_iff (img : Img) :
    keepImg img = true ↔
      ∀ w, img.width = some w → ∀ hs, img.height = some hs →
        w ≠ "" → hs ≠ "" →
          (pyInt w = none ∨
            ∃ wv, pyInt w = some wv ∧ 100 ≤ wv ∧
              (pyInt hs = none ∨ ∃ hv, pyInt hs = some hv ∧ 100 ≤ hv)) := by
  cases hw : img.width with
  | none => simp [keepImg, hw]
  | some w =>
    cases hh : img.height with
    | none => simp [keepImg, hw, hh]
    | some hs =>
      simp only [keepImg, hw, hh, Option.some.injEq, forall_eq']
      by_cases hwe : w = ""
      · subst hwe; simp
      · by_cases hhe : hs = ""
        · subst hhe; simp
        · have hband : (w != "" && hs != "") = true := by
            simp [hwe, hhe]
          rw [hband, if_pos rfl]
          cases hpw : pyInt w with
          | none => simp [hpw, hwe, hhe]
          | some wv =>
            by_cases hlt : wv < 100
            · have : ¬(100 ≤ wv) := by omega
              simp [hpw, hwe, hhe, hlt, this]
            · cases hph : pyInt hs with
              | none =>
                simp [hpw, hph, if_neg hlt, hwe, hhe]
                omega
              | some hv =>
                simp [hpw, hph, if_neg hlt, hwe, hhe]
                omega

/-- An image whose width parses to 50 but whose height is non-numeric. -/
def imgC2 : Img :=
  { src := some "x.png", alt := none, title := none,
    width := some "50", height := some "abc" }

/-- A document whose article contains only `imgC2`. -/
def soupC2 : Soup :=
  { title := none, body := none, jsonLd := none, likes := none,
    comments := none, article := some { imgs := [imgC2], codes := [] } }

/-- C2 counterexample: `imgC2`'s height fails to parse as an integer, so
the claim requires it retained (fail-open); but its width parses below 100
and the short-circuit `int(width) < 100 or int(height) < 100` discards it
before `int(height)` is evaluated — the output is empty. -/
theorem extract_images_shortcircuit_cex :
    pyInt "50" = some 50 ∧ pyInt "abc" = none ∧
      extract_images soupC2 = [] := by
  refine ⟨by decide, by decide, by decide⟩

/-- C2 amended: an image of the article subtree is included in the output
iff, whenever both its width and height attributes are present and
non-empty, either the width fails to parse as an integer (fail-open), or
the width parses to at least 100 and the height fails to parse or parses
to at least 100. Because `int(width) < 100` is evaluated first and
short-circuits, an image whose width parses below 100 is discarded even
when its height is non-numeric; the fail-open behaviour for a non-numeric
height applies only when the width parses to 100 or more. -/
theorem extract_images_retention (soup : Soup) (art : Article) (idx : Nat)
    (img : Img) (hart : soup.article = some art)
    (hidx : art.imgs.get? idx = some img) :
    mkImgOut idx img ∈ extract_images soup ↔
      ∀ w, img.width = some w → ∀ hs, img.height = some hs →
        w ≠ "" → hs ≠ "" →
          (pyInt w = none ∨
            ∃ wv, pyInt w = some wv ∧ 100 ≤ wv ∧
              (pyInt hs = none ∨ ∃ hv, pyInt hs = some hv ∧ 100 ≤ hv)) := by
  have h0 : mkImgOut idx img ∈ extract_images soup ↔ keepImg img = true := by
    simp only [extract_images, hart]
    have := mem_extractImagesAux_iff art.imgs 0 idx img hidx
    rwa [Nat.zero_add] at this
  rw [h0]
  exact keepImg_iff img

theorem extract_images_retention_witness :
    mkImgOut 0 imgC2 ∈ extract_images soupC2 ↔
      ∀ w, imgC2.width = some w → ∀ hs, imgC2.height = some hs →
        w ≠ "" → hs ≠ "" →
          (pyInt w = none ∨
            ∃ wv, pyInt w = some wv ∧ 100 ≤ wv ∧
              (pyInt hs = none ∨ ∃ hv, pyInt hs = some hv ∧ 100 ≤ hv)) :=
  extract_images_retention soupC2 { imgs := [imgC2], codes := [] } 0 imgC2
    rfl rfl

/-! ## Lemmas about the batch loop's event trace -/

/-- The events emitted by the loop from a given store onwards: a skip, an
extraction followed by the rate-limit sleep, or a caught error, per
entry. -/
def traceEvents (extract : String → Except ScrapeErr Post) (se : Bool) :
    List String → List SitemapEntry → List Event
  | _, [] => []
  | store, e :: rest =>
    if se && slugOf e.url ∈ store then
      Event.skipped (slugOf e.url) :: traceEvents extract se store rest
    else
      match extract e.url with
      | Except.ok post =>
        Event.extracted (slugOf e.url) :: Event.slept ::
          traceEvents extract se
            (if se then store ++ [slugOf post.url] else store) rest
      | Except.error err =>
        Event.errored (slugOf e.url) (errMsgOf err) ::
          traceEvents extract se store rest

theorem runBatch_events (extract : String → Except ScrapeErr Post)
    (se : Bool) (entries : List SitemapEntry) :
    ∀ st : BatchState, (runBatch extract se entries st).events =
      st.events ++ traceEvents extract se st.store entries := by
  induction entries with
  | nil => intro st; simp [runBatch, traceEvents]
  | cons e rest ih =>
    intro st
    rw [runBatch, ih (processEntry extract se st e), traceEvents]
    simp only [processEntry]
    by_cases hskip : (se && decide (slugOf e.url ∈ st.store)) = true
    · simp [hskip, List.append_assoc]
    · cases hex : extract e.url with
      | ok post => simp [hskip, hex, List.append_assoc]
      | error err => simp [hskip, hex, List.append_assoc]

/-- A well-formed trace: every `slept` event immediately follows an
`extracted` event, and every `extracted` event is immediately followed by a
`slept` event; `skipped` and `errored` events are never followed by a
sleep. -/
def goodTrace : List Event → Bool
  | [] => true
  | Event.skipped _ :: rest => goodTrace rest
  | Event.errored _ _ :: rest => goodTrace rest
  | Event.extracted _ :: Event.slept :: rest => goodTrace rest
  | Event.extracted _ :: _ => false
  | Event.slept :: _ => false

theorem goodTrace_traceEvents (extract : String → Except ScrapeErr Post)
    (se : Bool) (entries : List SitemapEntry) :
    ∀ store : List String,
      goodTrace (traceEvents extract se store entries) = true := by
  induction entries with
  | nil => intro store; rfl
  | cons e rest ih =>
    intro store
    rw [traceEvents]
    by_cases hskip : (se && decide (slugOf e.url ∈ store)) = true
    · simp only [hskip, if_true]
      rw [goodTrace]
      exact ih store
    · simp only [hskip, if_false, Bool.false_eq_true]
      cases hex : extract e.url with
      | ok post =>
        rw [goodTrace]
        exact ih _
      | error err =>
        rw [goodTrace]
        exact ih store

/-- A batch entry whose extraction fails with a transport error. -/
def entryC4 : SitemapEntry :=
  { url := "https://blog.bytebytego.com/p/boom", title := "Boom", year := 2021 }

/-- An extractor that fails on every url. -/
def extractFailC4 : String → Except ScrapeErr Post :=
  fun _ => Except.error (ScrapeErr.fetch "503 Server Error")

/-- C4 counterexample: an entry that fails with an error is not followed by
the rate-limit wait — `time.sleep` sits inside the `try` block after the
extraction, so the exception jumps over it; the run's whole event trace for
a single failing entry contains no sleep at all. -/
theorem no_sleep_after_failure_cex :
    (scrape_all_posts extractFailC4 true [entryC4] []).events =
        [Event.errored "boom" "503 Server Error"] ∧
      Event.slept ∉ (scrape_all_posts extractFailC4 true [entryC4] []).events := by
  refine ⟨by decide, by decide⟩

/-- C4 amended: the rate-limit wait occurs immediately after every
successfully extracted entry and only there: entries that fail with an
error and entries skipped by the resumability check are never followed by
the wait. -/
theorem scrape_all_posts_sleep_after_success
    (extract : String → Except ScrapeErr Post) (se : Bool)
    (urls : List SitemapEntry) (store0 : List String) :
    goodTrace ((scrape_all_posts extract se urls store0).events) = true := by
  rw [scrape_all_posts, runBatch_events]
  have h1 : (initState store0).events = [] := rfl
  have h2 : (initState store0).store = store0 := rfl
  rw [h1, h2, List.nil_append]
  exact goodTrace_traceEvents extract se urls store0

/-- C8: with persistence enabled, an entry whose slug is already stored is
counted as successful and nothing else happens — the resulting state does
not depend on the extractor at all (no extraction, no fetch, no write),
and the only event is the skip; with persistence disabled no skip occurs:
the extractor is always consulted and the entry's events are those of its
extraction outcome. -/
theorem resumability_skip (extract extract' : String → Except ScrapeErr Post)
    (e : SitemapEntry) (store0 : List String)
    (h : slugOf e.url ∈ store0) :
    scrape_all_posts extract true [e] store0 =
        { store := store0, successes := 1, failures := 0, errors := [],
          events := [Event.skipped (slugOf e.url)] } ∧
      scrape_all_posts extract' true [e] store0 =
        scrape_all_posts extract true [e] store0 ∧
      (scrape_all_posts extract false [e] store0).events =
        (match extract e.url with
         | Except.ok _ => [Event.extracted (slugOf e.url), Event.slept]
         | Except.error err => [Event.errored (slugOf e.url) (errMsgOf err)]) := by
  have hskip : (true && decide (slugOf e.url ∈ store0)) = true := by
    simp [h]
  refine ⟨?_, ?_, ?_⟩
  · simp [scrape_all_posts, runBatch, processEntry, initState, h]
  · simp [scrape_all_posts, runBatch, processEntry, initState, h]
  · simp only [scrape_all_posts, runBatch, processEntry, initState,
      Bool.false_and, Bool.false_eq_true, if_false]
    cases hex : extract e.url with
    | ok post => simp [hex]
    | error err => simp [hex]

/-- A stored record for the witness's entry. -/
def entryC8 : SitemapEntry :=
  { url := "https://blog.bytebytego.com/p/a", title := "A", year := 2021 }

/-- An extractor that succeeds with a minimal post echoing the url. -/
def extractOkC8 : String → Except ScrapeErr Post := fun u =>
  Except.ok
    { url := u, title := none, content_text := none, metadata := [],
      code_snippets := [], images := [] }

/-- An extractor that always fails. -/
def extractFailC8 : String → Except ScrapeErr Post :=
  fun _ => Except.error (ScrapeErr.fetch "503 Server Error")

theorem resumability_skip_witness :
    scrape_all_posts extractOkC8 true [entryC8] ["a"] =
        { store := ["a"], successes := 1, failures := 0, errors := [],
          events := [Event.skipped (slugOf entryC8.url)] } ∧
      scrape_all_posts extractFailC8 true [entryC8] ["a"] =
        scrape_all_posts extractOkC8 true [entryC8] ["a"] ∧
      (scrape_all_posts extractOkC8 false [entryC8] ["a"]).events =
        (match extractOkC8 entryC8.url with
         | Except.ok _ => [Event.extracted (slugOf entryC8.url), Event.slept]
         | Except.error err =>
             [Event.errored (slugOf entryC8.url) (errMsgOf err)]) :=
  resumability_skip extractOkC8 extractFailC8 entryC8 ["a"] (by decide)

/-! ## Lemmas about batch continuation and accounting -/

theorem runBatch_append (extract : String → Except ScrapeErr Post)
    (se : Bool) (xs ys : List SitemapEntry) :
    ∀ st : BatchState, runBatch extract se (xs ++ ys) st =
      runBatch extract se ys (runBatch extract se xs st) := by
  induction xs with
  | nil => intro st; rfl
  | cons x xs ih =>
    intro st
    rw [List.cons_append, runBatch, runBatch, ih]

/-- C9: an extraction error on one entry never aborts the batch — the loop
records `{url, slug, error message}` at the end of the error list,
increments the failed counter, emits no other change, and continues with
the remaining entries from exactly that state. -/
theorem batch_error_no_abort (extract : String → Except ScrapeErr Post)
    (se : Bool) (pre post : List SitemapEntry) (e : SitemapEntry)
    (m : ScrapeErr) (store0 : List String)
    (herr : extract e.url = Except.error m)
    (hnoskip :
      (se && decide
        (slugOf e.url ∈ (runBatch extract se pre (initState store0)).store))
        = false) :
    scrape_all_posts extract se (pre ++ e :: post) store0 =
      runBatch extract se post
        { runBatch extract se pre (initState store0) with
          failures := (runBatch extract se pre (initState store0)).failures + 1,
          errors := (runBatch extract se pre (initState store0)).errors ++
            [{ url := e.url, slug := slugOf e.url, error := errMsgOf m }],
          events := (runBatch extract se pre (initState store0)).events ++
            [Event.errored (slugOf e.url) (errMsgOf m)] } := by
  rw [scrape_all_posts, runBatch_append, runBatch]
  congr 1
  simp [processEntry, hnoskip, herr]

/-- The five posts of the partial-failure scenario: the third one's
extraction fails, the other four succeed. -/
def entries5 : List SitemapEntry :=
  [{ url := "https://blog.bytebytego.com/p/a", title := "A", year := 2021 },
   { url := "https://blog.bytebytego.com/p/b", title := "B", year := 2021 },
   { url := "https://blog.bytebytego.com/p/c", title := "C", year := 2022 },
   { url := "https://blog.bytebytego.com/p/d", title := "D", year := 2022 },
   { url := "https://blog.bytebytego.com/p/e", title := "E", year := 2023 }]

/-- The extractor of the partial-failure scenario. -/
def ex5 : String → Except ScrapeErr Post := fun u =>
  if u = "https://blog.bytebytego.com/p/c" then
    Except.error (ScrapeErr.fetch "503 Server Error")
  else
    Except.ok
      { url := u, title := none, content_text := none, metadata := [],
        code_snippets := [], images := [] }

theorem batch_error_no_abort_witness :
    (scrape_all_posts ex5 true
        ([entries5.get ⟨0, by decide⟩, entries5.get ⟨1, by decide⟩] ++
          entries5.get ⟨2, by decide⟩ ::
            [entries5.get ⟨3, by decide⟩, entries5.get ⟨4, by decide⟩]) [] =
      runBatch ex5 true [entries5.get ⟨3, by decide⟩, entries5.get ⟨4, by decide⟩]
        { runBatch ex5 true
            [entries5.get ⟨0, by decide⟩, entries5.get ⟨1, by decide⟩]
            (initState []) with
          failures := (runBatch ex5 true
            [entries5.get ⟨0, by decide⟩, entries5.get ⟨1, by decide⟩]
            (initState [])).failures + 1,
          errors := (runBatch ex5 true
            [entries5.get ⟨0, by decide⟩, entries5.get ⟨1, by decide⟩]
            (initState [])).errors ++
            [{ url := (entries5.get ⟨2, by decide⟩).url,
               slug := slugOf (entries5.get ⟨2, by decide⟩).url,
               error := errMsgOf (ScrapeErr.fetch "503 Server Error") }],
          events := (runBatch ex5 true
            [entries5.get ⟨0, by decide⟩, entries5.get ⟨1, by decide⟩]
            (initState [])).events ++
            [Event.errored (slugOf (entries5.get ⟨2, by decide⟩).url)
              (errMsgOf (ScrapeErr.fetch "503 Server Error"))] }) ∧
    batchSummary ex5 true entries5 [] =
      { total := 5, successful := 4, failed := 1,
        errors := [{ url := "https://blog.bytebytego.com/p/c", slug := "c",
                     error := "503 Server Error" }] } :=
  ⟨batch_error_no_abort ex5 true
      [entries5.get ⟨0, by decide⟩, entries5.get ⟨1, by decide⟩]
      [entries5.get ⟨3, by decide⟩, entries5.get ⟨4, by decide⟩]
      (entries5.get ⟨2, by decide⟩) (ScrapeErr.fetch "503 Server Error") []
      rfl (by decide),
    by decide⟩

theorem runBatch_counts (extract : String → Except ScrapeErr Post)
    (se : Bool) (entries : List SitemapEntry) :
    ∀ st : BatchState,
      (runBatch extract se entries st).successes +
          (runBatch extract se entries st).failures =
        st.successes + st.failures + entries.length := by
  induction entries with
  | nil => intro st; simp [runBatch]
  | cons e rest ih =>
    intro st
    rw [runBatch, ih (processEntry extract se st e)]
    simp only [processEntry]
    by_cases hskip : (se && decide (slugOf e.url ∈ st.store)) = true
    · simp [hskip, List.length_cons]; omega
    · cases hex : extract e.url with
      | ok post => simp [hskip, hex, List.length_cons]; omega
      | error err => simp [hskip, hex, List.length_cons]; omega

theorem runBatch_errors_length (extract : String → Except ScrapeErr Post)
    (se : Bool) (entries : List SitemapEntry) :
    ∀ st : BatchState,
      (runBatch extract se entries st).errors.length + st.failures =
        st.errors.length + (runBatch extract se entries st).failures := by
  induction entries with
  | nil => intro st; simp [runBatch]
  | cons e rest ih =>
    intro st
    rw [runBatch]
    have h := ih (processEntry extract se st e)
    simp only [processEntry] at h ⊢
    by_cases hskip : (se && decide (slugOf e.url ∈ st.store)) = true
    · simp [hskip] at h ⊢; omega
    · cases hex : extract e.url with
      | ok post => simp [hskip, hex] at h ⊢; omega
      | error err => simp [hskip, hex] at h ⊢; omega

/-- C10: the summary returned by `scrape_all_posts` counts every input
entry exactly once — `total = successful + failed`, `total` is the length
of the input list, and the error list has exactly `failed` records. -/
theorem batchSummary_accounting (extract : String → Except ScrapeErr Post)
    (se : Bool) (urls : List SitemapEntry) (store0 : List String) :
    (batchSummary extract se urls store0).total =
        (batchSummary extract se urls store0).successful +
          (batchSummary extract se urls store0).failed ∧
      (batchSummary extract se urls store0).total = urls.length ∧
      (batchSummary extract se urls store0).errors.length =
        (batchSummary extract se urls store0).failed := by
  have h1 := runBatch_counts extract se urls (initState store0)
  have h2 := runBatch_errors_length extract se urls (initState store0)
  have e1 : (initState store0).successes = 0 := rfl
  have e2 : (initState store0).failures = 0 := rfl
  have e3 : (initState store0).errors = ([] : List ErrRec) := rfl
  rw [e1, e2] at h1
  rw [e2, e3] at h2
  simp only [List.length_nil] at h2
  refine ⟨?_, rfl, ?_⟩
  · simp only [batchSummary, scrape_all_posts]
    omega
  · simp only [batchSummary, scrape_all_posts]
    omega

/-! ## Lemmas about year aggregation in the sitemap collection -/

theorem collectYears_all_ok (pages : Nat → List Link) :
    ∀ ys : List Nat, collectYears (fun z => Except.ok (pages z)) ys =
      Except.ok (ys.flatMap (fun z => parseSitemapLinks (pages z) z)) := by
  intro ys
  induction ys with
  | nil => rfl
  | cons y rest ih =>
    rw [collectYears, collect_urls_from_sitemap]
    rw [ih]
    rfl

theorem collectYears_error_propagates
    (fetch : Nat → Except String (List Link)) (e : String)
    (bs : List Nat) (y : Nat) (hy : fetch y = Except.error e) :
    ∀ as : List Nat, (∀ z ∈ as, ∃ ls, fetch z = Except.ok ls) →
      collectYears fetch (as ++ y :: bs) = Except.error e := by
  intro as
  induction as with
  | nil =>
    intro _
    rw [List.nil_append, collectYears, collect_urls_from_sitemap, hy]
  | cons a rest ih =>
    intro hok
    obtain ⟨ls, hls⟩ := hok a (List.mem_cons_self a rest)
    rw [List.cons_append, collectYears, collect_urls_from_sitemap, hls,
      ih (fun z hz => hok z (List.mem_cons_of_mem a hz))]

/-- C5 amended: if every year's sitemap page is fetched successfully, then
a malformed page (one whose links yield no entries) contributes zero
entries for its year while every other year's entries still appear — the
output is the dedup of the concatenation of per-year parses. But if the
fetch of some year raises (the page is unreachable) and the years before it
succeed, the exception propagates out of `collect_all_urls`: the whole
collection aborts and the remaining years' results are lost. -/
theorem collect_all_urls_year_isolation
    (pages : Nat → List Link) (fetch : Nat → Except String (List Link))
    (e : String) (as bs : List Nat) (y : Nat)
    (hyears : sitemapYears = as ++ y :: bs)
    (hok : ∀ z ∈ as, ∃ ls, fetch z = Except.ok ls)
    (hy : fetch y = Except.error e) :
    collect_all_urls (fun z => Except.ok (pages z)) =
        Except.ok (dedupByUrl
          (sitemapYears.flatMap (fun z => parseSitemapLinks (pages z) z)) []) ∧
      collect_all_urls fetch = Except.error e := by
  constructor
  · rw [collect_all_urls, collectYears_all_ok pages sitemapYears]
  · rw [collect_all_urls, hyears,
      collectYears_error_propagates fetch e bs y hy as hok]

/-- A network where the 2021 sitemap fetch raises and every later year's
page holds one post link. -/
def fetchErrC5 : Nat → Except String (List Link) := fun y =>
  if y = 2021 then Except.error "ConnectionError"
  else
    Except.ok [{ href := "https://blog.bytebytego.com/p/good", text := "Good" }]

/-- C5 counterexample: with 2021 unreachable, 2022's sitemap alone would
give one entry, yet `collect_all_urls` produces no aggregated output at
all — the exception propagates and the remaining years' results are
dropped, where the claim requires them to still appear. -/
theorem sitemap_error_aborts_cex :
    collect_urls_from_sitemap fetchErrC5 2022 =
        Except.ok [{ url := "https://blog.bytebytego.com/p/good",
                     title := "Good", year := 2022 }] ∧
      collect_all_urls fetchErrC5 = Except.error "ConnectionError" :=
  ⟨rfl, rfl⟩

/-- Concrete per-year pages for the witness: 2022's page is malformed (its
only link is not a post link), the other years each carry one post. -/
def pagesC5 : Nat → List Link := fun y =>
  if y = 2022 then [{ href := "https://blog.bytebytego.com/about", text := "About" }]
  else [{ href := "https://blog.bytebytego.com/p/post-of-the-year", text := "P" }]

theorem collect_all_urls_year_isolation_witness :
    collect_all_urls (fun z => Except.ok (pagesC5 z)) =
        Except.ok (dedupByUrl
          (sitemapYears.flatMap (fun z => parseSitemapLinks (pagesC5 z) z)) []) ∧
      collect_all_urls fetchErrC5 = Except.error "ConnectionError" :=
  collect_all_urls_year_isolation pagesC5 fetchErrC5 "ConnectionError"
    [] [2022, 2023, 2024, 2025] 2021 rfl
    (fun z hz => absurd hz (List.not_mem_nil z)) rfl

/-- A successfully fetched document whose ld+json script holds the valid
JSON text `[1, 2, 3]` — parseable, but not an object. -/
def soupBadLd : Soup :=
  { title := some "T", body := some "Body",
    jsonLd := some (some (Json.arr [Json.num 1, Json.num 2, Json.num 3])),
    likes := none, comments := none,
    article := some { imgs := [], codes := [] } }

/-- The network returning that document for every url. -/
def fetchBadLd : String → Except String Soup := fun _ => Except.ok soupBadLd

/-- C6: on a successfully fetched document whose structured-data block is
valid JSON but not an object, `json.loads` succeeds, so the
`except json.JSONDecodeError` handler does not fire, and the subsequent
`json_data.get('headline')` raises `AttributeError` — which escapes
`extract_post` even though the fetch succeeded, contradicting the contract
that a FetchError is the only error the extractor raises. -/
theorem extract_post_raises_on_ill_typed_jsonld :
    extract_post fetchBadLd "https://blog.bytebytego.com/p/x" =
      Except.error (ScrapeErr.pyErr "AttributeError") := rfl


/-! ## The metadata key-set characterization -/

/-- The Python value of `json_data.get(key)` on a parsed object (`None`
both for an absent key and for a stored JSON null). -/
def objGet (fs : List (String × Json)) (key : String) : Option Json :=
  match fs.find? (fun p => p.1 == key) with
  | none => none
  | some p => toPy p.2

theorem pyGet_obj (fs : List (String × Json)) (key : String) :
    pyGet (Json.obj fs) key = Except.ok (objGet fs key) := by
  rw [pyGet, objGet]
  cases fs.find? (fun p => p.1 == key) <;> rfl

/-- The Python value of `json_data.get('author', [])` on a parsed object:
the stored author entry when the key is present (Python `None` for JSON
null), else the `[]` default. -/
def authorsVal (fs : List (String × Json)) : Option Json :=
  match fs.find? (fun p => p.1 == "author") with
  | none => some (Json.arr [])
  | some p => toPy p.2

theorem pyGetDefault_obj_author (fs : List (String × Json)) :
    pyGetDefault (Json.obj fs) "author" (Json.arr []) =
      Except.ok (authorsVal fs) := by
  rw [pyGetDefault, authorsVal]
  cases fs.find? (fun p => p.1 == "author") <;> rfl

/-- The keys contributed by the JSON-LD block: the four fields whenever the
block parses as an object (regardless of which fields the object has),
plus author and author_url exactly when the author entry is truthy. -/
def jsonLdKeysSpec (jsonLd : Option (Option Json)) : List String :=
  match jsonLd with
  | some (some (Json.obj fs)) =>
    ["headline", "description", "date_published", "date_modified"] ++
      (if pyTruthy (authorsVal fs) then ["author", "author_url"] else [])
  | _ => []

/-- The full key list `extract_metadata` produces, in insertion order. -/
def mdKeysSpec (soup : Soup) : List String :=
  jsonLdKeysSpec soup.jsonLd ++
  (match soup.likes with
   | some _ => ["likes"]
   | none => []) ++
  (match soup.comments with
   | some _ => ["comments"]
   | none => [])

theorem jsonLdPart_keys (jsonLd : Option (Option Json)) (md1 : Metadata)
    (h : jsonLdPart jsonLd = Except.ok md1) :
    md1.map Prod.fst = jsonLdKeysSpec jsonLd := by
  cases jsonLd with
  | none =>
    rw [jsonLdPart] at h
    injection h with h
    subst h
    rfl
  | some pr =>
    cases pr with
    | none =>
      rw [jsonLdPart] at h
      injection h with h
      subst h
      rfl
    | some jd =>
      cases jd with
      | obj fs =>
        rw [jsonLdPart] at h
        simp only [pyGet_obj, pyGetDefault_obj_author] at h
        by_cases hauth : pyTruthy (authorsVal fs) = true
        · rw [if_pos hauth] at h
          cases ha0 : pyIndex0 (authorsVal fs) with
          | error m =>
            simp only [ha0] at h
            exact Except.noConfusion h
          | ok a0 =>
            simp only [ha0] at h
            cases hnm : pyGet a0 "name" with
            | error m =>
              simp only [hnm] at h
              exact Except.noConfusion h
            | ok nm =>
              simp only [hnm] at h
              cases hau : pyGet a0 "url" with
              | error m =>
                simp only [hau] at h
                exact Except.noConfusion h
              | ok au =>
                simp only [hau] at h
                injection h with h
                subst h
                simp [jsonLdKeysSpec, hauth]
        · rw [if_neg hauth] at h
          injection h with h
          subst h
          simp [jsonLdKeysSpec, hauth]
      | null => simp [jsonLdPart, pyGet] at h
      | bool b => simp [jsonLdPart, pyGet] at h
      | num n => simp [jsonLdPart, pyGet] at h
      | str s => simp [jsonLdPart, pyGet] at h
      | arr xs => simp [jsonLdPart, pyGet] at h

/-- C7 amended: when `extract_metadata` returns (rather than raising), its
key set is exactly `mdKeysSpec`: whenever the JSON-LD block parses as an
object, the keys headline, description, date_published and date_modified
are all present — a field absent in the source is stored as Python `None`
under its key rather than omitted — while author and author_url are
present (possibly `None`-valued) exactly when the author entry is truthy;
only likes and comments are genuinely omitted when their controls are
absent, and all JSON-LD keys are omitted when the block is absent or
unparseable. -/
theorem extract_metadata_keys (soup : Soup) (md : Metadata)
    (h : extract_metadata soup = Except.ok md) :
    md.map Prod.fst = mdKeysSpec soup := by
  cases hjp : jsonLdPart soup.jsonLd with
  | error m => rw [extract_metadata, hjp] at h; cases h
  | ok md1 =>
    rw [extract_metadata, hjp] at h
    have hk := jsonLdPart_keys soup.jsonLd md1 hjp
    rw [mdKeysSpec, ← hk]
    cases hl : soup.likes with
    | none =>
      cases hc : soup.comments with
      | none =>
        rw [hl, hc] at h
        injection h with h
        subst h
        simp
      | some n =>
        rw [hl, hc] at h
        injection h with h
        subst h
        simp
    | some n =>
      cases hc : soup.comments with
      | none =>
        rw [hl, hc] at h
        injection h with h
        subst h
        simp
      | some n' =>
        rw [hl, hc] at h
        injection h with h
        subst h
        simp

/-- A document whose JSON-LD block parses to an object with no fields at
all (every metadata field absent in the source). -/
def soupC7 : Soup :=
  { title := none, body := none, jsonLd := some (some (Json.obj [])),
    likes := none, comments := none, article := none }

/-- C7 counterexample: with every field absent from the parsed JSON-LD
object, `extract_metadata` still returns the four keys headline,
description, date_published and date_modified — each present and bound to
Python `None` — where the claim requires the keys to be absent
altogether. -/
theorem metadata_none_defaults_cex :
    extract_metadata soupC7 =
        Except.ok [("headline", none), ("description", none),
                   ("date_published", none), ("date_modified", none)] ∧
      "headline" ∈
        (match extract_metadata soupC7 with
         | Except.ok md => md.map Prod.fst
         | Except.error _ => []) :=
  ⟨rfl, by decide⟩

/-- A document with a fully populated JSON-LD object and a likes control,
for the witness: headline present, author entry with name and url. -/
def soupC7w : Soup :=
  { title := none, body := none,
    jsonLd := some (some (Json.obj
      [("headline", Json.str "H"),
       ("author", Json.arr
          [Json.obj [("name", Json.str "N"), ("url", Json.str "U")]])])),
    likes := some 42, comments := none, article := none }

/-- The metadata `extract_metadata` returns for `soupC7w`. -/
def mdC7w : Metadata :=
  [("headline", some (Json.str "H")), ("description", none),
   ("date_published", none), ("date_modified", none),
   ("author", some (Json.str "N")), ("author_url", some (Json.str "U")),
   ("likes", some (Json.num 42))]

theorem extract_metadata_keys_witness :
    mdC7w.map Prod.fst = mdKeysSpec soupC7w :=
  extract_metadata_keys soupC7w mdC7w rfl
